import Mathlib

/-!
Shallow embedding of the `http-service` crate core (src/lib.rs): the streaming
`Body` type (a wrapped pull-based stream of `Result<Bytes, io::Error>` items)
and the `HttpService` trait with its blanket implementation for plain
request-to-response functions.

Modelling choices:
* A `Bytes` chunk is a list of byte values.
* An I/O error is identified by a numeric code (`IoError := Nat`); the crate
  treats `std::io::Error` opaquely.
* A pull-based stream (`futures::Stream`) is a coalgebra: a state type `σ`
  together with `poll_next : σ → Option Item × σ`, one transition per pull,
  abstracting over scheduler suspensions (`Poll::Pending`).
* `Body` wraps one stream and its current state, as `StreamObj` does.
* `Body::into_vec` is the async drain loop, given explicit fuel (the loop in
  the source may run unboundedly on an unbounded stream).
* A future that is already resolved is modelled by `FutureV` with a count of
  pending polls before readiness; `futures::future::ok(())` has count zero.
-/

namespace HttpServiceCore

/-- A byte chunk (`bytes::Bytes`): a view over a contiguous byte range. -/
abbrev Bytes := List Nat

/-- An I/O error (`std::io::Error`), identified by its code. -/
abbrev IoError := Nat

/-- One stream item: `Result<Bytes, std::io::Error>`. -/
abbrev Item := Except IoError Bytes

/-- A pull-based stream of `Item`s (`futures::Stream` with
`Item = Result<Bytes, io::Error>`): each pull yields either `none`
(no more items) or `some` item, together with the successor state. -/
structure StreamS (σ : Type) where
  poll_next : σ → Option Item × σ

/-- The raw body of an http request or response: wraps a single underlying
stream (`StreamObj<'static, Result<Bytes, std::io::Error>>`) together with
its current state. -/
structure Body (σ : Type) where
  stream : StreamS σ
  state : σ

/-- `Body::from_stream`: wrap a stream (with its initial state) in a body. -/
def Body.from_stream {σ : Type} (s : StreamS σ) (st : σ) : Body σ :=
  ⟨s, st⟩

/-- `futures::stream::empty()`: every pull yields `none`. -/
def emptyStream : StreamS Unit :=
  ⟨fun _ => (none, ())⟩

/-- `Body::empty()`: `Body::from_stream(stream::empty())`. -/
def Body.empty : Body Unit :=
  Body.from_stream emptyStream ()

/-- `futures::stream::once(future::ok(x))`: yields the single item once,
then `none` forever. State is "item not yet yielded". -/
def onceStream (it : Item) : StreamS Bool :=
  ⟨fun s => if s then (some it, false) else (none, false)⟩

/-- `impl<T: Into<Bytes> + Send> From<T> for Body`: convert the owned buffer
to one chunk and build `Body::from_stream(stream::once(future::ok(chunk)))`. -/
def Body.from_buffer (b : Bytes) : Body Bool :=
  Body.from_stream (onceStream (Except.ok b)) true

/-- A stream backed by a finite list of items: pop the head on each pull,
yield `none` once the list is exhausted. This is the canonical finite
producer fed to `Body::from_stream`. -/
def listStream : StreamS (List Item) :=
  ⟨fun l =>
    match l with
    | [] => (none, [])
    | x :: rest => (some x, rest)⟩

/-- A body built by `Body::from_stream` from a finite item sequence. -/
def Body.of_items (items : List Item) : Body (List Item) :=
  Body.from_stream listStream items

/-- `<Body as Stream>::poll_next`: delegate the pull to the wrapped stream. -/
def Body.poll_next {σ : Type} (b : Body σ) : Option Item × Body σ :=
  ((b.stream.poll_next b.state).1, ⟨b.stream, (b.stream.poll_next b.state).2⟩)

/-- The item obtained by the `(n+1)`-th pull of a stream from state `st`,
together with the state left behind. -/
def StreamS.pollIter {σ : Type} (s : StreamS σ) : σ → Nat → Option Item × σ
  | st, 0 => s.poll_next st
  | st, n + 1 => s.pollIter (s.poll_next st).2 n

/-- The item obtained by the `(n+1)`-th pull of a body, with the body left
behind. -/
def Body.pollIter {σ : Type} : Body σ → Nat → Option Item × Body σ
  | b, 0 => b.poll_next
  | b, n + 1 => (b.poll_next).2.pollIter n

/-- The list of the first `n` pull outcomes of a stream from state `st`. -/
def StreamS.itemTrace {σ : Type} : StreamS σ → σ → Nat → List (Option Item)
  | _, _, 0 => []
  | s, st, n + 1 => (s.poll_next st).1 :: s.itemTrace (s.poll_next st).2 n

/-- The list of the first `n` pull outcomes of a body. -/
def Body.itemTrace {σ : Type} : Body σ → Nat → List (Option Item)
  | _, 0 => []
  | b, n + 1 => (b.poll_next).1 :: (b.poll_next).2.itemTrace n

/-- The drain loop of `Body::into_vec`: repeatedly pull; on a successful
chunk extend the accumulator, on `none` return the accumulated bytes, on an
error return that error at once. `fuel` bounds the number of pulls; `none`
means the fuel ran out before the loop finished. -/
def Body.into_vec_go {σ : Type} (s : StreamS σ) :
    Nat → σ → List Nat → Option (Except IoError (List Nat))
  | 0, _, _ => none
  | fuel + 1, st, acc =>
    match s.poll_next st with
    | (none, _) => some (Except.ok acc)
    | (some (Except.ok c), st2) => Body.into_vec_go s fuel st2 (acc ++ c)
    | (some (Except.error e), _) => some (Except.error e)

/-- `Body::into_vec`: drain the whole body into one `Vec<u8>`, starting from
an empty accumulator. -/
def Body.into_vec {σ : Type} (b : Body σ) (fuel : Nat) :
    Option (Except IoError (List Nat)) :=
  Body.into_vec_go b.stream fuel b.state []

/-- A pull outcome that signals the end of the sequence: either the terminal
"no more items" signal or an error. -/
def terminalItem (it : Option Item) : Prop :=
  it = none ∨ ∃ e, it = some (Except.error e)

/-- A well-behaved stream: once a pull yields the terminal signal or an
error, every later pull yields "no more items" (the spec's condition that
well-behaved underlying sequences are not resumed). -/
def StreamS.wellBehaved {σ : Type} (s : StreamS σ) : Prop :=
  ∀ q, terminalItem (s.poll_next q).1 →
    ∀ k, (s.pollIter (s.poll_next q).2 k).1 = none

/-- The state of a stream after `n` pulls from state `st`. -/
def StreamS.stateAfter {σ : Type} (s : StreamS σ) : σ → Nat → σ
  | st, 0 => st
  | st, n + 1 => s.stateAfter (s.poll_next st).2 n

/-- An asynchronous computation that resolves to `result` after
`pendingSteps` pending polls. `futures::future::ok(v)` is
`⟨0, Except.ok v⟩`: it resolves synchronously, on its first poll. -/
structure FutureV (α : Type) where
  pendingSteps : Nat
  result : α

/-- A message envelope (`http::Request<Body>` / `http::Response<Body>`):
caller-supplied metadata (method, target, headers, status, ...) paired with
exactly one body, given by its underlying item sequence. -/
structure Message where
  meta : List Nat
  items : List Item

/-- `Request = http::Request<Body>`. -/
abbrev Request := Message

/-- `Response = http::Response<Body>`. -/
abbrev Response := Message

/-- The `HttpService` trait: per-connection state type `Conn`, a
connection-establishment future (`connect`, given only shared access to the
service) and a request handler (`respond`, given exclusive access to the
connection state, which it returns possibly updated). `CErr` and `RErr` are
the error types of the two futures. -/
structure HttpService (Conn CErr RErr : Type) where
  connect : FutureV (Except CErr Conn)
  respond : Conn → Request → FutureV (Except RErr Response) × Conn

/-- The blanket `impl HttpService for F` where
`F: Fn(Request) -> Fut`: `Connection = ()`, `connect` is
`future::ok(())`, and `respond` ignores the connection and invokes the
function on the request. -/
def fnService {RErr : Type} (f : Request → FutureV (Except RErr Response)) :
    HttpService Unit RErr RErr where
  connect := ⟨0, Except.ok ()⟩
  respond := fun conn req => (f req, conn)

/-! ## Helper lemmas -/

/-- Pulling a wrapped body agrees item-by-item with pulling the underlying
stream, state included. -/
theorem body_pollIter_fst {σ : Type} (s : StreamS σ) (st : σ) (n : Nat) :
    ((Body.from_stream s st).pollIter n).1 = (s.pollIter st n).1 := by
  induction n generalizing st with
  | zero => rfl
  | succ n ih =>
    simpa [Body.pollIter, Body.poll_next, Body.from_stream, StreamS.pollIter]
      using ih (s.poll_next st).2

/-- After `n + 1` pulls the stream sits in the state reached by pulling once
from the state after `n` pulls. -/
theorem stateAfter_succ {σ : Type} (s : StreamS σ) (st : σ) (n : Nat) :
    s.stateAfter st (n + 1) = (s.poll_next (s.stateAfter st n)).2 := by
  induction n generalizing st with
  | zero => rfl
  | succ n ih =>
    simpa [StreamS.stateAfter] using ih (s.poll_next st).2

/-- State evolution is additive in the number of pulls. -/
theorem stateAfter_add {σ : Type} (s : StreamS σ) (st : σ) (a b : Nat) :
    s.stateAfter st (a + b) = s.stateAfter (s.stateAfter st a) b := by
  induction b with
  | zero => rfl
  | succ b ih =>
    show s.stateAfter st (a + b + 1) = _
    rw [stateAfter_succ, ih, ← stateAfter_succ]

/-- The `(n+1)`-th pull is one pull taken from the state after `n` pulls. -/
theorem pollIter_eq_poll_stateAfter {σ : Type} (s : StreamS σ) (st : σ)
    (n : Nat) :
    s.pollIter st n = s.poll_next (s.stateAfter st n) := by
  induction n generalizing st with
  | zero => rfl
  | succ n ih =>
    simpa [StreamS.pollIter, StreamS.stateAfter] using ih (s.poll_next st).2

/-- If a state is a fixpoint that yields `none`, every iterated pull of the
wrapped body from it yields `none`. -/
theorem pollIter_none_fix {σ : Type} (s : StreamS σ) (st : σ)
    (h : s.poll_next st = (none, st)) (k : Nat) :
    ((Body.from_stream s st).pollIter k).1 = none := by
  induction k with
  | zero => simp [Body.pollIter, Body.poll_next, Body.from_stream, h]
  | succ k ih =>
    have h2 : (Body.from_stream s st).poll_next.2 = Body.from_stream s st := by
      simp [Body.poll_next, Body.from_stream, h]
    simpa [Body.pollIter, h2] using ih

/-- Every pull of `stream::empty` yields `none`. -/
theorem emptyStream_pollIter (q : Unit) (k : Nat) :
    (emptyStream.pollIter q k).1 = none := by
  induction k with
  | zero => rfl
  | succ k ih => simpa [StreamS.pollIter] using ih

/-- `stream::empty` is well-behaved. -/
theorem emptyStream_wellBehaved : emptyStream.wellBehaved :=
  fun _ _ k => emptyStream_pollIter () k

/-- Running the drain loop over a prefix of successful chunks consumes that
prefix, appending its concatenation to the accumulator. -/
theorem into_vec_go_ok_prefix (cs : List Bytes) :
    ∀ (n : Nat) (acc : List Nat) (tail : List Item), cs.length ≤ n →
      Body.into_vec_go listStream (n + 1) (cs.map Except.ok ++ tail) acc
        = Body.into_vec_go listStream (n - cs.length + 1) tail (acc ++ cs.flatten) := by
  induction cs with
  | nil => intro n acc tail _; simp
  | cons c cs ih =>
    intro n acc tail h
    obtain ⟨m, rfl⟩ : ∃ m, n = m + 1 := by
      cases n with
      | zero => exact absurd h (by simp)
      | succ m => exact ⟨m, rfl⟩
    have step :
        Body.into_vec_go listStream (m + 1 + 1)
            ((c :: cs).map Except.ok ++ tail) acc
          = Body.into_vec_go listStream (m + 1) (cs.map Except.ok ++ tail)
              (acc ++ c) := by
      simp [Body.into_vec_go, listStream]
    rw [step, ih m (acc ++ c) tail (by simpa using h)]
    simp [Nat.succ_sub_succ, List.append_assoc]

/-- A concrete stream that is not well-behaved: it yields an error on the
first pull and then a further successful chunk. Any Rust type may implement
`Stream` this way, and `Body::from_stream` accepts it. -/
def resumingStream : StreamS Nat :=
  ⟨fun n =>
    match n with
    | 0 => (some (Except.error 7), 1)
    | 1 => (some (Except.ok [42]), 2)
    | _ => (none, 2)⟩

/-! ## Claim theorems -/

/-- C1: for every owned byte buffer `b`, draining `Body::from(b)` with
`into_vec` (any fuel of at least two pulls) returns success with exactly
`b`'s byte sequence, unchanged. -/
theorem from_buffer_into_vec (b : Bytes) (n : Nat) :
    (Body.from_buffer b).into_vec (n + 2) = some (Except.ok b) := by
  simp [Body.into_vec, Body.into_vec_go, Body.from_buffer, Body.from_stream,
    onceStream]

/-- C2: if the underlying sequence yields successful chunks at positions
`0..k` and an I/O error at position `k`, `into_vec` on the body built by
`from_stream` returns that error, and does not return the bytes of the
successful chunks as a success value. -/
theorem into_vec_first_error (chunks : List Bytes) (e : IoError)
    (rest : List Item) (fuel : Nat) (h : chunks.length < fuel) :
    (Body.of_items (chunks.map Except.ok ++ Except.error e :: rest)).into_vec
          fuel
        = some (Except.error e) ∧
      (Body.of_items
          (chunks.map Except.ok ++ Except.error e :: rest)).into_vec fuel
        ≠ some (Except.ok chunks.flatten) := by
  obtain ⟨n, rfl⟩ : ∃ n, fuel = n + 1 := by
    cases fuel with
    | zero => exact absurd h (by simp)
    | succ n => exact ⟨n, rfl⟩
  have key :
      (Body.of_items (chunks.map Except.ok ++ Except.error e :: rest)).into_vec
          (n + 1) = some (Except.error e) := by
    rw [Body.into_vec, Body.of_items, Body.from_stream,
      into_vec_go_ok_prefix chunks n [] (Except.error e :: rest)
        (Nat.lt_succ_iff.mp h)]
    simp [Body.into_vec_go, listStream]
  exact ⟨key, fun hv => by rw [key] at hv; simp at hv⟩

/-- C2 witness: a two-chunk prefix followed by error `7` drains to that
error, not to a success value. -/
theorem into_vec_first_error_witness :
    (Body.of_items ([[1, 2]].map Except.ok
          ++ Except.error 7 :: [Except.ok [3]])).into_vec 2
        = some (Except.error 7) ∧
      (Body.of_items ([[1, 2]].map Except.ok
          ++ Except.error 7 :: [Except.ok [3]])).into_vec 2
        ≠ some (Except.ok [[1, 2]].flatten) :=
  into_vec_first_error [[1, 2]] 7 [Except.ok [3]] 2 (by decide)

/-- C3: for the function-based adapter, `respond` on any connection value
and request returns exactly the future produced by invoking the wrapped
function on the request, with the connection state passed through
untouched. -/
theorem fn_respond_eq {RErr : Type}
    (f : Request → FutureV (Except RErr Response)) (conn : Unit)
    (req : Request) :
    (fnService f).respond conn req = (f req, conn) :=
  rfl

/-- C4: for the function-based adapter, `connect` resolves with zero pending
polls (synchronously, it never suspends) to success with the unit connection
value, whatever the wrapped function is. -/
theorem fn_connect_eq {RErr : Type}
    (f : Request → FutureV (Except RErr Response)) :
    (fnService f).connect.pendingSteps = 0 ∧
      (fnService f).connect.result = Except.ok () :=
  ⟨rfl, rfl⟩

/-- C5: for every finite sequence of successful chunks fed into
`from_stream`, draining the resulting body with `into_vec` (with fuel beyond
the chunk count) returns success with the concatenation of their bytes in
arrival order. -/
theorem from_stream_into_vec_concat (chunks : List Bytes) (fuel : Nat)
    (h : chunks.length < fuel) :
    (Body.of_items (chunks.map Except.ok)).into_vec fuel
      = some (Except.ok chunks.flatten) := by
  obtain ⟨n, rfl⟩ : ∃ n, fuel = n + 1 := by
    cases fuel with
    | zero => exact absurd h (by simp)
    | succ n => exact ⟨n, rfl⟩
  rw [Body.into_vec, Body.of_items, Body.from_stream,
    show chunks.map Except.ok = chunks.map Except.ok ++ [] by simp,
    into_vec_go_ok_prefix chunks n [] [] (Nat.lt_succ_iff.mp h)]
  simp [Body.into_vec_go, listStream]

/-- C5 witness: the chunks `[1, 2]` and `[3]` drain to `[1, 2, 3]`. -/
theorem from_stream_into_vec_concat_witness :
    (Body.of_items ([[1, 2], [3]].map Except.ok)).into_vec 3
      = some (Except.ok [[1, 2], [3]].flatten) :=
  from_stream_into_vec_concat [[1, 2], [3]] 3 (by decide)

/-- C6: draining `Body::empty()` with `into_vec` (any positive fuel) returns
success with the zero-length byte vector, and every pull of `Body::empty()`
as a stream yields "no more items". -/
theorem empty_into_vec_and_trace (n : Nat) :
    Body.empty.into_vec (n + 1) = some (Except.ok []) ∧
      ∀ k, (Body.empty.pollIter k).1 = none := by
  refine ⟨?_, fun k => pollIter_none_fix emptyStream () rfl k⟩
  simp [Body.into_vec, Body.into_vec_go, Body.empty, Body.from_stream,
    emptyStream]

/-- C7: for every owned byte buffer `b`, the body `Body::from(b)` pulled as
a stream yields exactly one successful chunk holding `b`'s bytes, and every
later pull yields "no more items". -/
theorem from_buffer_single_chunk (b : Bytes) :
    ((Body.from_buffer b).pollIter 0).1 = some (Except.ok b) ∧
      ∀ k, ((Body.from_buffer b).pollIter (k + 1)).1 = none := by
  constructor
  · rfl
  · intro k
    have h2 : (Body.from_buffer b).poll_next.2
        = Body.from_stream (onceStream (Except.ok b)) false := rfl
    show ((Body.from_buffer b).poll_next.2.pollIter k).1 = none
    rw [h2]
    exact pollIter_none_fix (onceStream (Except.ok b)) false rfl k

/-- C8: pulling `Body::from_stream(S)` yields exactly the same sequence of
chunk-or-error outcomes as pulling `S` directly, for every stream `S`, start
state and trace length: the body delegates each pull and adds nothing. -/
theorem from_stream_trace_eq {σ : Type} (s : StreamS σ) (st : σ) (n : Nat) :
    (Body.from_stream s st).itemTrace n = s.itemTrace st n := by
  induction n generalizing st with
  | zero => rfl
  | succ n ih =>
    simpa [Body.itemTrace, StreamS.itemTrace, Body.poll_next,
      Body.from_stream] using ih (s.poll_next st).2

/-- C9 counterexample: a body over a stream that yields an error and then a
successful chunk. The first pull is an error (a terminal outcome), yet the
next pull yields a further item rather than "no more items", so the claim
as stated fails on this body. -/
theorem body_resumes_after_error :
    terminalItem ((Body.from_stream resumingStream 0).pollIter 0).1 ∧
      ((Body.from_stream resumingStream 0).pollIter 1).1
        = some (Except.ok [42]) ∧
      ((Body.from_stream resumingStream 0).pollIter 1).1 ≠ none :=
  ⟨Or.inr ⟨7, rfl⟩, rfl, Option.some_ne_none (Except.ok [42])⟩

/-- C9 (amended): for every body whose underlying stream is well-behaved
(once a pull yields the terminal signal or an error, its later pulls yield
"no more items"), once a pull of the body yields the terminal signal or an
error, every further pull of the body yields "no more items". -/
theorem body_fully_consumed {σ : Type} (s : StreamS σ) (st : σ)
    (hwb : s.wellBehaved) (n : Nat)
    (ht : terminalItem ((Body.from_stream s st).pollIter n).1) :
    ∀ k, ((Body.from_stream s st).pollIter (n + 1 + k)).1 = none := by
  intro k
  rw [body_pollIter_fst] at ht ⊢
  rw [pollIter_eq_poll_stateAfter] at ht
  have hq := hwb (s.stateAfter st n) ht k
  rw [pollIter_eq_poll_stateAfter] at hq ⊢
  rw [stateAfter_add, stateAfter_succ]
  exact hq

/-- C9 witness: the empty stream is well-behaved and its first pull is
terminal, so the pull after it yields "no more items". -/
theorem body_fully_consumed_witness :
    ((Body.from_stream emptyStream ()).pollIter (0 + 1 + 0)).1 = none :=
  body_fully_consumed emptyStream () emptyStream_wellBehaved 0
    (Or.inl rfl) 0

/-- C10: `Body::from` of an empty buffer yields one successful zero-length
chunk, while `Body::empty()` yields no chunk at all; both drain via
`into_vec` to the empty byte vector without error. -/
theorem empty_buffer_chunk_vs_empty :
    ((Body.from_buffer []).pollIter 0).1 = some (Except.ok []) ∧
      (Body.empty.pollIter 0).1 = none ∧
      (Body.from_buffer []).into_vec 2 = some (Except.ok []) ∧
      Body.empty.into_vec 1 = some (Except.ok []) :=
  ⟨rfl, rfl, rfl, rfl⟩

end HttpServiceCore
